import Mathlib

/-!
Verification of the command-support layer of the TLE bot
(`tle/util/codeforces_common.py` and `tle/util/discord_common.py`),
shallowly embedded in Lean 4.

Conventions of the embedding:
* Python ints are `Int` (Python `divmod` is floor division, i.e. `Int.fdiv` /
  `Int.fmod`); container sizes are `Nat`.
* Python sets are modelled as duplicate-free lists; `set.add` is an
  insert-if-absent at the end, `set.update` folds such inserts.
* Fallible code returns `Except`; `None`-able lookups return `Option`.
* External systems (the user database, the contest cache, the chat gateway
  converters, the Clist client, `datetime.strptime`, `int()`) are modelled as
  explicit environment records of functions; only their call contracts are
  used by the embedded code, exactly as in the source.
-/

/-- Python's `' '.join(...)` on a list of strings. -/
def join_with_space : List String → String
  | [] => ""
  | [x] => x
  | x :: xs => x ++ " " ++ join_with_space xs

namespace codeforces_common

/-- From `codeforces_common.time_format`: successive `divmod` by 86400, 3600,
60.  Python `divmod` is floor division with a remainder having the divisor's
sign, i.e. `Int.fdiv` / `Int.fmod`. -/
def time_format (seconds : Int) : Int × Int × Int × Int :=
  let days := seconds.fdiv 86400
  let s1 := seconds.fmod 86400
  let hours := s1.fdiv 3600
  let s2 := s1.fmod 3600
  let minutes := s2.fdiv 60
  let s3 := s2.fmod 60
  (days, hours, minutes, s3)

/-- The inner `format_` closure of `codeforces_common.pretty_time_format`:
`f'{cnt}{singular[0]}'` when shortened, else
`f'{cnt} {singular if cnt == 1 else plural}'`. -/
def format_unit (shorten : Bool) (triple : Int × String × String) : String :=
  let cnt := triple.1
  let singular := triple.2.1
  let plural := triple.2.2
  if shorten then toString cnt ++ singular.take 1
  else toString cnt ++ " " ++ (if cnt = 1 then singular else plural)

/-- The `timeprint` list of `pretty_time_format` before the seconds fixup: the
day/hour/minute triples whose count is truthy (nonzero). -/
def nonzero_units (seconds : Int) : List (Int × String × String) :=
  let (days, hours, minutes, _) := time_format seconds
  [(days, "day", "days"), (hours, "hour", "hours"),
    (minutes, "minute", "minutes")].filter (fun t => t.1 != 0)

/-- From `codeforces_common.pretty_time_format` (keyword options passed
positionally in source order: `shorten`, `only_most_significant`,
`always_seconds`). -/
def pretty_time_format (seconds : Int)
    (shorten only_most_significant always_seconds : Bool) : String :=
  let (_, _, _, secs) := time_format seconds
  let timeprint := nonzero_units seconds
  let timeprint :=
    if timeprint.isEmpty || always_seconds then
      timeprint ++ [(secs, "second", "seconds")]
    else timeprint
  let timeprint := if only_most_significant then timeprint.take 1 else timeprint
  join_with_space (timeprint.map (format_unit shorten))

end codeforces_common

namespace discord_common

/-- From `discord_common.time_format`, a verbatim duplicate of the
`codeforces_common` version. -/
def time_format (seconds : Int) : Int × Int × Int × Int :=
  let days := seconds.fdiv 86400
  let s1 := seconds.fmod 86400
  let hours := s1.fdiv 3600
  let s2 := s1.fmod 3600
  let minutes := s2.fdiv 60
  let s3 := s2.fmod 60
  (days, hours, minutes, s3)

/-- The inner `format_` closure of `discord_common.pretty_time_format`. -/
def format_unit (shorten : Bool) (triple : Int × String × String) : String :=
  let cnt := triple.1
  let singular := triple.2.1
  let plural := triple.2.2
  if shorten then toString cnt ++ singular.take 1
  else toString cnt ++ " " ++ (if cnt = 1 then singular else plural)

/-- The `timeprint` list of `discord_common.pretty_time_format` before the
seconds fixup. -/
def nonzero_units (seconds : Int) : List (Int × String × String) :=
  let (days, hours, minutes, _) := time_format seconds
  [(days, "day", "days"), (hours, "hour", "hours"),
    (minutes, "minute", "minutes")].filter (fun t => t.1 != 0)

/-- From `discord_common.pretty_time_format`, a verbatim duplicate of the
`codeforces_common` version. -/
def pretty_time_format (seconds : Int)
    (shorten only_most_significant always_seconds : Bool) : String :=
  let (_, _, _, secs) := time_format seconds
  let timeprint := nonzero_units seconds
  let timeprint :=
    if timeprint.isEmpty || always_seconds then
      timeprint ++ [(secs, "second", "seconds")]
    else timeprint
  let timeprint := if only_most_significant then timeprint.take 1 else timeprint
  join_with_space (timeprint.map (format_unit shorten))

end discord_common

namespace codeforces_common

/-- `SPECIAL_COUNTRY_NAME_WORD` lookup table from the source. -/
def SPECIAL_COUNTRY_NAME_WORD (w : String) : Option String :=
  if w = "u.s." then some "U.S."
  else if w = "guinea-bissau" then some "Guinea-Bissau"
  else none

/-- The `ARTICLES` list from the source (note: it contains `"or"`, not
`"of"`). -/
def ARTICLES : List String := ["and", "or", "the"]

/-- Python `str.lower()` (source strings are ASCII). -/
def py_lower (s : String) : String := String.mk (s.data.map Char.toLower)

/-- Python `str.capitalize()`: first character uppercased, the rest
lowercased (source strings are ASCII). -/
def py_capitalize (s : String) : String :=
  match s.data with
  | [] => ""
  | c :: cs => String.mk (Char.toUpper c :: cs.map Char.toLower)

/-- Helper for `py_split_words`: `acc` holds the reversed characters of the
word currently being scanned. -/
def py_split_words_aux : List Char → List Char → List String
  | [], acc => if acc.isEmpty then [] else [String.mk acc.reverse]
  | c :: cs, acc =>
    if c.isWhitespace then
      if acc.isEmpty then py_split_words_aux cs []
      else String.mk acc.reverse :: py_split_words_aux cs []
    else py_split_words_aux cs (c :: acc)

/-- Python `str.split()` with no argument: split on runs of whitespace,
discarding empty chunks (hence also leading/trailing whitespace, which makes
the preceding `lstrip().rstrip()` of the source a no-op). -/
def py_split_words (s : String) : List String := py_split_words_aux s.data []

/-- The per-word body of the loop in `reformat_country_name`. -/
def reformat_word (w0 : String) : String :=
  let w := py_lower w0
  if w ∈ ARTICLES then w
  else
    match SPECIAL_COUNTRY_NAME_WORD w with
    | some r => r
    | none => py_capitalize w

/-- From `reformat_country_name`: strip, split on whitespace runs (Python
`str.split()` with no argument discards empty chunks), map each word, rejoin
with single spaces. -/
def reformat_country_name (country : String) : String :=
  let words := py_split_words country
  join_with_space (words.map reformat_word)

end codeforces_common

/-- Helper for `pyDedup`: `seen` collects the values already emitted. -/
def pyDedupAux {α : Type} [DecidableEq α] : List α → List α → List α
  | [], _ => []
  | a :: as, seen =>
    if a ∈ seen then pyDedupAux as seen else a :: pyDedupAux as (a :: seen)

/-- Deduplication keeping first occurrences: the determinization of Python's
`set(...)` / `list(set(...))` used by the resolver and filter parser (Python
set iteration order is unspecified; all order-sensitive statements below are
made against this fixed choice). -/
def pyDedup {α : Type} [DecidableEq α] (l : List α) : List α := pyDedupAux l []

/-- Python `set.add`: insert if absent (appended at the end in this
determinization). -/
def listInsert {α : Type} [DecidableEq α] (x : α) (l : List α) : List α :=
  if x ∈ l then l else l ++ [x]

/-- Python `set.update`: fold `set.add` over the added collection. -/
def listUnion {α : Type} [DecidableEq α] (l more : List α) : List α :=
  more.foldl (fun acc x => listInsert x acc) l


namespace codeforces_common

/-- Errors of the filter-argument machinery: `paramParse` is
`ParamParseError` (carrying the message), `valueError` is an uncaught Python
`ValueError` (from `int()` in the rating branches), `indexError` is the
uncaught `IndexError` that `arg[0]` raises on an empty token. -/
inductive ParseError where
  | paramParse (msg : String) : ParseError
  | valueError : ParseError
  | indexError : ParseError
deriving DecidableEq

/-- External behaviour the filter parser calls into:
`parseDateRaw` abstracts `time.mktime(datetime.datetime.strptime(arg, fmt))`
(with `fmt` determined by the argument's length, returning `none` when
`strptime` raises `ValueError`), and `pyInt` abstracts Python `int()`
(`none` when it raises `ValueError`). -/
structure ParseEnv where
  parseDateRaw : String → Option Int
  pyInt : String → Option Int

/-- From `parse_date`: arguments of length 8/6/4 choose a format and are
parsed by `strptime`/`mktime`; any other length, or a `strptime` failure, is
reported as a `ParamParseError`. -/
def parse_date (env : ParseEnv) (arg : String) : Except ParseError Int :=
  if arg.length = 8 ∨ arg.length = 6 ∨ arg.length = 4 then
    match env.parseDateRaw arg with
    | some t => .ok t
    | none => .error (.paramParse (arg ++ " is an invalid date argument"))
  else .error (.paramParse (arg ++ " is an invalid date argument"))

/-- The filter specification built by `SubFilter.__init__`. -/
structure SubFilter where
  team : Bool
  rated : Bool
  dlo : Int
  dhi : Int
  rlo : Int
  rhi : Int
  types : List String
  tags : List String
  notags : List String
  contests : List String
  indices : List String
deriving DecidableEq

/-- `SubFilter.__init__(rated)`: defaults `[dlo, dhi) = [0, 10^10)`,
`[rlo, rhi] = [500, 3800]`, all token lists empty. -/
def SubFilter.init (rated : Bool) : SubFilter :=
  ⟨false, rated, 0, 10 ^ 10, 500, 3800, [], [], [], [], []⟩

/-- One iteration of the token loop in `SubFilter.parse`, threading the
filter state and the `rest` accumulator.  The source dispatches by a chain of
equality and slice tests (`arg == '+team'`, `arg[0:2] == 'c+'`,
`arg[0] == '+'`, `arg[0:2] == 'd<'`, `arg[0:3] == 'd>='`,
`arg[0:3] in ['r<=', 'r>=']`, ...); those tests are mutually exclusive
(distinct leading characters, with the five exact `+...` keywords tested
before the generic `+tag` case), so they are rendered here as one pattern
match on the token's characters, keeping the exact-keyword tests inside the
`+` case in source order.  An empty token reaches `arg[0]` in the source and
raises `IndexError`. -/
def parseStep (env : ParseEnv) (st : SubFilter × List String) (arg : String) :
    Except ParseError (SubFilter × List String) :=
  let f := st.1
  let rest := st.2
  match arg.data with
  | [] => .error .indexError
  | 'c' :: '+' :: _ => .ok ({f with contests := f.contests ++ [arg.drop 2]}, rest)
  | 'i' :: '+' :: _ => .ok ({f with indices := f.indices ++ [arg.drop 2]}, rest)
  | 'd' :: '<' :: _ =>
    match parse_date env (arg.drop 2) with
    | .ok t => .ok ({f with dhi := min f.dhi t}, rest)
    | .error e => .error e
  | 'd' :: '>' :: '=' :: _ =>
    match parse_date env (arg.drop 3) with
    | .ok t => .ok ({f with dlo := max f.dlo t}, rest)
    | .error e => .error e
  | 'r' :: '<' :: '=' :: _ =>
    if arg.length < 4 then .error (.paramParse (arg ++ " is an invalid rating argument"))
    else
      match env.pyInt (arg.drop 3) with
      | some v => .ok ({f with rhi := min f.rhi v, rated := true}, rest)
      | none => .error .valueError
  | 'r' :: '>' :: '=' :: _ =>
    if arg.length < 4 then .error (.paramParse (arg ++ " is an invalid rating argument"))
    else
      match env.pyInt (arg.drop 3) with
      | some v => .ok ({f with rlo := max f.rlo v, rated := true}, rest)
      | none => .error .valueError
  | '~' :: cs =>
    if cs = [] then .error (.paramParse "Problem tag cannot be empty.")
    else .ok ({f with notags := f.notags ++ [arg.drop 1]}, rest)
  | '+' :: cs =>
    if arg = "+team" then .ok ({f with team := true}, rest)
    else if arg = "+contest" then .ok ({f with types := f.types ++ ["CONTESTANT"]}, rest)
    else if arg = "+outof" then .ok ({f with types := f.types ++ ["OUT_OF_COMPETITION"]}, rest)
    else if arg = "+virtual" then .ok ({f with types := f.types ++ ["VIRTUAL"]}, rest)
    else if arg = "+practice" then .ok ({f with types := f.types ++ ["PRACTICE"]}, rest)
    else if cs = [] then .error (.paramParse "Problem tag cannot be empty.")
    else .ok ({f with tags := f.tags ++ [arg.drop 1]}, rest)
  | _ => .ok (f, rest ++ [arg])

/-- The token loop of `SubFilter.parse`. -/
def parseLoop (env : ParseEnv) (st : SubFilter × List String) :
    List String → Except ParseError (SubFilter × List String)
  | [] => .ok st
  | a :: as =>
    match parseStep env st a with
    | .ok st1 => parseLoop env st1 as
    | .error e => .error e

/-- From `SubFilter.parse`: deduplicate the arguments (`list(set(args))`,
determinized here as first-occurrence order), run the token loop, then
default `types` to all four participation kinds when none was given.
Returns the updated filter and the unrecognized tokens. -/
def SubFilter.parse (env : ParseEnv) (f : SubFilter) (args : List String) :
    Except ParseError (SubFilter × List String) :=
  match parseLoop env (f, []) (pyDedup args) with
  | .error e => .error e
  | .ok (f1, rest) =>
    .ok ({f1 with types :=
      if f1.types.isEmpty then ["CONTESTANT", "OUT_OF_COMPETITION", "VIRTUAL", "PRACTICE"]
      else f1.types}, rest)

/-- The effect of one token on the upper date bound: `d<` tokens take the
minimum with the parsed date, every other token leaves it unchanged. -/
def dhiStep (env : ParseEnv) (acc : Int) (arg : String) : Int :=
  match arg.data with
  | 'd' :: '<' :: _ =>
    match parse_date env (arg.drop 2) with
    | .ok t => min acc t
    | .error _ => acc
  | _ => acc

/-- The effect of one token on the lower date bound: `d>=` tokens take the
maximum with the parsed date, every other token leaves it unchanged. -/
def dloStep (env : ParseEnv) (acc : Int) (arg : String) : Int :=
  match arg.data with
  | 'd' :: '>' :: '=' :: _ =>
    match parse_date env (arg.drop 3) with
    | .ok t => max acc t
    | .error _ => acc
  | _ => acc

end codeforces_common

/-- State visible to the `user_guard` wrapper: the guard group's `active` set
of user ids plus the state `inner` that the wrapped handler acts on (making
handler execution observable). -/
structure GuardState (σ : Type) where
  active : List Nat
  inner : σ

/-- From `user_guard`: one invocation of the wrapped handler `f`.  If the user
is already in the active set the call is suppressed, raising the factory's
error when `get_exception` is supplied and silently returning otherwise.
Otherwise the id is added, the handler runs, and the `finally` block removes
the id whether the handler succeeded or raised.  Returns the raised error (if
any) and the final state. -/
def user_guard_call {σ E : Type} (get_exception : Option E)
    (handler : σ → Except E σ) (user : Nat) (g : GuardState σ) :
    Option E × GuardState σ :=
  if user ∈ g.active then
    match get_exception with
    | some e => (some e, g)
    | none => (none, g)
  else
    let active1 := user :: g.active
    match handler g.inner with
    | .ok s1 => (none, ⟨active1.erase user, s1⟩)
    | .error e => (some e, ⟨active1.erase user, g.inner⟩)

namespace codeforces_common

/-- Contest metadata used by the filters; `matchesF` abstracts the external
`Contest.matches(markers)` predicate of the API client (only its Boolean
outcome is used by the embedded code; `matches` is a Lean keyword, hence the
suffix). -/
structure Contest where
  id : Nat
  name : String
  startTimeSeconds : Nat
  matchesF : List String → Bool

/-- Problem metadata; `tag_matches q` is the truthiness of the external
`Problem.tag_matches(q)` call and `tag_matches_or_none q` is the truth of
`Problem.tag_matches_or(q) == None`, both abstracted since the API client's
code is not part of this layer. -/
structure Problem where
  name : String
  contestId : Nat
  index : String
  rating : Option Int
  tag_matches : List String → Bool
  tag_matches_or_none : List String → Bool

/-- Submission author party: participation type and member handles. -/
structure Author where
  participantType : String
  members : List String

/-- A Codeforces submission as consumed by the filters. -/
structure Submission where
  problem : Problem
  verdict : String
  creationTimeSeconds : Int
  author : Author

/-- The cache and API-client context of the filters:
`contestById` is `cache2.contest_cache.contest_by_id.get(...)` (also backing
`get_contest`, which succeeds exactly on the same ids), and
`GYM_ID_THRESHOLD` is the fixed constant of the external API-client module
separating gym contests from rated ones. -/
structure CacheEnv where
  contestById : Nat → Option Contest
  GYM_ID_THRESHOLD : Nat

/-- `_NONSTANDARD_CONTEST_INDICATORS` from the source. -/
def NONSTANDARD_CONTEST_INDICATORS : List String :=
  ["wild", "fools", "surprise", "unknown", "friday", "q#", "testing",
   "marathon", "kotlin", "onsite", "experimental", "abbyy"]

/-- From `is_nonstandard_contest`: some marker occurs as a substring of the
lower-cased contest name. -/
def is_nonstandard_contest (contest : Contest) : Bool :=
  NONSTANDARD_CONTEST_INDICATORS.any
    (fun s => decide (s.data <:+: (py_lower contest.name).data))

/-- From `is_nonstandard_problem`, with the contest passed explicitly: every
call site below first obtains `some c` from `contestById problem.contestId`,
on which `get_contest` returns the same contest, so the source's
`is_nonstandard_contest(get_contest(problem.contestId))` is
`is_nonstandard_contest c`. -/
def is_nonstandard_problem_with (c : Contest) (p : Problem) : Bool :=
  is_nonstandard_contest c || p.tag_matches ["*special"]

/-- The problem identity used by `filter_solved`: (problem name, contest
start time), with start time 0 when the contest is unknown. -/
def problemKey (env : CacheEnv) (sub : Submission) : String × Nat :=
  (sub.problem.name,
    match env.contestById sub.problem.contestId with
    | some c => c.startTimeSeconds
    | none => 0)

/-- The accumulation loop of `SubFilter.filter_solved`: keep the first
accepted submission for each not-yet-seen problem key. -/
def filterSolvedAux (env : CacheEnv) : List Submission → List (String × Nat) → List Submission
  | [], _ => []
  | s :: rest, seen =>
    if s.verdict = "OK" then
      if problemKey env s ∈ seen then filterSolvedAux env rest seen
      else s :: filterSolvedAux env rest (problemKey env s :: seen)
    else filterSolvedAux env rest seen

/-- Sort key of `submissions.sort(key=lambda sub: sub.creationTimeSeconds)`. -/
def subTimeLE (a b : Submission) : Prop :=
  a.creationTimeSeconds ≤ b.creationTimeSeconds

instance : DecidableRel subTimeLE :=
  fun a b => Int.decLe a.creationTimeSeconds b.creationTimeSeconds

instance : IsTotal Submission subTimeLE :=
  ⟨fun a b => Int.le_total a.creationTimeSeconds b.creationTimeSeconds⟩

instance : IsTrans Submission subTimeLE := ⟨fun _ _ _ => Int.le_trans⟩

/-- From `SubFilter.filter_solved`: stable-sort by creation time (Python's
stable `list.sort` is modelled by a stable insertion sort), then keep the
first accepted submission per problem key. -/
def filter_solved (env : CacheEnv) (submissions : List Submission) : List Submission :=
  filterSolvedAux env (submissions.insertionSort subTimeLE) []

/-- The per-submission admission predicate of `SubFilter.filter_subs` (the
conjunction tested by its final `if`). -/
def filter_pred (env : CacheEnv) (f : SubFilter) (sub : Submission) : Bool :=
  let problem := sub.problem
  let contest := env.contestById problem.contestId
  let type_ok := decide (sub.author.participantType ∈ f.types)
  let date_ok := decide (f.dlo ≤ sub.creationTimeSeconds ∧ sub.creationTimeSeconds < f.dhi)
  let tag_ok := f.tags.isEmpty || problem.tag_matches f.tags
  let notag_ok := f.notags.isEmpty || problem.tag_matches_or_none f.notags
  let index_ok := f.indices.isEmpty || f.indices.any (fun i => py_lower i = py_lower problem.index)
  let contest_ok := f.contests.isEmpty ||
    (match contest with
     | some c => c.matchesF f.contests
     | none => false)
  let team_ok := f.team || decide (sub.author.members.length = 1)
  let problem_ok :=
    if f.rated then
      match contest with
      | some c => decide (c.id < env.GYM_ID_THRESHOLD) && !is_nonstandard_problem_with c problem
      | none => false
    else
      match contest with
      | some c => decide (env.GYM_ID_THRESHOLD ≤ c.id) || !is_nonstandard_problem_with c problem
      | none => true
  let rating_ok :=
    if f.rated then
      match problem.rating with
      | some r => decide (r ≠ 0 ∧ f.rlo ≤ r ∧ r ≤ f.rhi)
      | none => false
    else true
  type_ok && date_ok && rating_ok && tag_ok && notag_ok && team_ok && problem_ok &&
    contest_ok && index_ok

/-- From `SubFilter.filter_subs`: reduce to solved submissions, then keep the
ones passing every predicate. -/
def filter_subs (env : CacheEnv) (f : SubFilter) (submissions : List Submission) :
    List Submission :=
  (filter_solved env submissions).filter (filter_pred env f)

end codeforces_common

namespace codeforces_common

/-- `HandleIsVjudgeError.HANDLES`: the fixed mirror-bot blocklist. -/
def HandleIsVjudgeError.HANDLES : List String :=
  ["vjudge1", "vjudge2", "vjudge3", "vjudge4", "vjudge5",
   "luogu_bot1", "luogu_bot2", "luogu_bot3", "luogu_bot4", "luogu_bot5"]

/-- The errors `resolve_handles` raises (each carries the data interpolated
into its message in the source). -/
inductive ResolveError where
  | handleCountOutOfBounds (mincnt : Nat) (maxcnt : Option Nat) : ResolveError
  | findMemberFailed (member : String) : ResolveError
  | findRoleFailed (role : String) : ResolveError
  | handleNotRegistered (memberId : Nat) (resource : String) : ResolveError
  | handleIsVjudge (handle : String) : ResolveError
deriving DecidableEq

/-- A guild member as seen through the chat gateway: id and held role ids. -/
structure Member where
  id : Nat
  roles : List Nat
deriving DecidableEq

/-- The external context of `resolve_handles`: the user database
(`guildHandles` = `get_handles_for_guild`, `guildAccountIds` =
`get_account_ids_for_resource`, `getHandle`, `getAccountId`,
`getListHandles`, `getListAccountIds`, `getAccountIdFromHandle`), the
gateway converters (`roleConvert`, `memberConvert`, `none` meaning the
converter raised), the guild member list, and the Clist batch lookup
(`clistFetch`, returning the numeric ids of the found users, `none` when the
API returned `None`). -/
structure ResolveEnv where
  guildHandles : List String
  guildAccountIds : List Nat
  getHandle : Nat → Option String
  getAccountId : Nat → Option Nat
  roleConvert : String → Option Nat
  memberConvert : String → Option Nat
  members : List Member
  getListHandles : String → List String
  getListAccountIds : String → List Nat
  getAccountIdFromHandle : String → Option Nat
  clistFetch : List String → Option (List Nat)

/-- The inner member loop of the `+!role` branch for the default resource.
The Python loop variable `handle` is reassigned by
`handle = user_db.get_handle(member.id, ...)` for every member holding the
role (even to `None`), so the loop returns both the accumulated handle set
and the final value of `handle` (an `Option String`, `none` standing for
Python `None`). -/
def roleLoopCf (env : ResolveEnv) (rid : Nat) :
    List Member → List String → Option String → List String × Option String
  | [], resolved, hvar => (resolved, hvar)
  | m :: ms, resolved, hvar =>
    if rid ∈ m.roles then
      match env.getHandle m.id with
      | some h => roleLoopCf env rid ms (listInsert h resolved) (some h)
      | none => roleLoopCf env rid ms resolved none
    else roleLoopCf env rid ms resolved hvar

/-- The inner member loop of the `+!role` branch for non-default resources
(accumulates account ids; the loop variable `handle` is not reassigned
there). -/
def roleLoopOther (env : ResolveEnv) (rid : Nat) :
    List Member → List Nat → List Nat
  | [], accountIds => accountIds
  | m :: ms, accountIds =>
    if rid ∈ m.roles then
      match env.getAccountId m.id with
      | some a => roleLoopOther env rid ms (listInsert a accountIds)
      | none => roleLoopOther env rid ms accountIds
    else roleLoopOther env rid ms accountIds

/-- One iteration body of the token loop of `resolve_handles` (everything
before the final blocklist test).  The source dispatches on
`handle.startswith('+!')` / `'+'` / `'!'`, rendered as a pattern match on the
token's characters.  Returns the updated handle set, account-id set, and the
final value of the loop variable `handle` (which the `!member` branch
reassigns to the member's registered handle, and the `+!role` branch
reassigns inside its member loop). -/
def resolveStep (env : ResolveEnv) (resource : String) (t : String)
    (resolved : List String) (accountIds : List Nat) :
    Except ResolveError (List String × List Nat × Option String) :=
  match t.data with
  | '+' :: '!' :: _ =>
    match env.roleConvert (t.drop 2) with
    | none => .error (.findRoleFailed (t.drop 2))
    | some rid =>
      if resource = "codeforces.com" then
        let q := roleLoopCf env rid env.members resolved (some t)
        .ok (q.1, accountIds, q.2)
      else
        .ok (resolved, roleLoopOther env rid env.members accountIds, some t)
  | '+' :: _ =>
    if resource = "codeforces.com" then
      .ok (listUnion resolved (env.getListHandles (t.drop 1)), accountIds, some t)
    else
      .ok (resolved, listUnion accountIds (env.getListAccountIds (t.drop 1)), some t)
  | '!' :: _ =>
    match env.memberConvert (t.drop 1) with
    | none => .error (.findMemberFailed (t.drop 1))
    | some mid =>
      if resource = "codeforces.com" then
        match env.getHandle mid with
        | none => .error (.handleNotRegistered mid "Codeforces")
        | some h => .ok (listInsert h resolved, accountIds, some h)
      else
        match env.getAccountId mid with
        | none => .error (.handleNotRegistered mid resource)
        | some a => .ok (resolved, listInsert a accountIds, some t)
  | _ =>
    if resource = "codeforces.com" then
      .ok (listInsert t resolved, accountIds, some t)
    else
      match env.getAccountIdFromHandle t with
      | none => .ok (listInsert t resolved, accountIds, some t)
      | some a => .ok (resolved, listInsert a accountIds, some t)

/-- The token loop of `resolve_handles`: run the branch body, then apply the
source's end-of-iteration test `if handle in HandleIsVjudgeError.HANDLES`. -/
def resolveLoop (env : ResolveEnv) (resource : String) :
    List String → List String → List Nat →
    Except ResolveError (List String × List Nat)
  | [], resolved, accountIds => .ok (resolved, accountIds)
  | t :: ts, resolved, accountIds =>
    match resolveStep env resource t resolved accountIds with
    | .error e => .error e
    | .ok (res1, ais1, hvar) =>
      match hvar with
      | some h =>
        if h ∈ HandleIsVjudgeError.HANDLES then .error (.handleIsVjudge h)
        else resolveLoop env resource ts res1 ais1
      | none => resolveLoop env resource ts res1 ais1

/-- Python truthiness test `maxcnt and maxcnt < len(handles)`: `None` and `0`
are falsy, so no upper bound is enforced for them. -/
def maxcntExceeded (maxcnt : Option Nat) (n : Nat) : Bool :=
  match maxcnt with
  | none => false
  | some m => m != 0 && decide (m < n)

/-- The prologue of `resolve_handles`: deduplicate the tokens, add `+server`
when `default_to_all_server` is set and no token was given, and expand a
`+server` token into the guild's registered handles (default resource) or
account ids (other resources).  Returns the handle set and account-id set as
they stand at the count check. -/
def expandServer (env : ResolveEnv) (tokens : List String)
    (default_to_all_server : Bool) (resource : String) :
    List String × List Nat :=
  let handles := pyDedup tokens
  let handles := if default_to_all_server && handles.isEmpty then ["+server"] else handles
  if "+server" ∈ handles then
    let rest := handles.filter (fun h => h ≠ "+server")
    if resource = "codeforces.com" then (listUnion rest env.guildHandles, [])
    else (rest, listUnion [] env.guildAccountIds)
  else (handles, [])

/-- From `resolve_handles` (argument order: tokens, `mincnt`, `maxcnt`,
`default_to_all_server`, `resource`): prologue, count check, token loop, and
the final Clist batch lookup for non-default resources.  Returns the handle
list (default resource, `Sum.inl`) or the account-id list (`Sum.inr`). -/
def resolve_handles (env : ResolveEnv) (tokens : List String) (mincnt : Nat)
    (maxcnt : Option Nat) (default_to_all_server : Bool) (resource : String) :
    Except ResolveError (List String ⊕ List Nat) :=
  let p := expandServer env tokens default_to_all_server resource
  let handles := p.1
  let accountIds := p.2
  if accountIds.length = 0 ∧
      (handles.length < mincnt ∨ maxcntExceeded maxcnt handles.length = true) then
    .error (.handleCountOutOfBounds mincnt maxcnt)
  else
    match resolveLoop env resource handles [] accountIds with
    | .error e => .error e
    | .ok (resolved, ais) =>
      if resource = "codeforces.com" then .ok (.inl resolved)
      else
        let ais :=
          if resolved.isEmpty then ais
          else
            match env.clistFetch resolved with
            | some users => listUnion ais users
            | none => ais
        .ok (.inr ais)

end codeforces_common

namespace codeforces_common

/-- A resolver environment whose database and gateway know nothing. -/
def resolveEnvEmpty : ResolveEnv where
  guildHandles := []
  guildAccountIds := []
  getHandle _ := none
  getAccountId _ := none
  roleConvert _ := none
  memberConvert _ := none
  members := []
  getListHandles _ := []
  getListAccountIds _ := []
  getAccountIdFromHandle _ := none
  clistFetch _ := none

/-- A guild with six registered handles. -/
def resolveEnvBigGuild : ResolveEnv :=
  { resolveEnvEmpty with guildHandles := ["h1", "h2", "h3", "h4", "h5", "h6"] }

/-- A database holding a persisted list `judges` containing a blocklisted
mirror handle. -/
def resolveEnvVjudgeList : ResolveEnv :=
  { resolveEnvEmpty with
      getListHandles := fun nm => if nm = "judges" then ["vjudge1"] else [] }

/-- Sample parse environment: dates evaluate to the argument's length,
integers via `String.toInt?`. -/
def parse_env0 : ParseEnv where
  parseDateRaw s := some s.length
  pyInt s := s.toInt?

/-- Sample initial filter. -/
def parse_f0 : SubFilter := SubFilter.init true

/-- The filter produced by parsing `["d<12345678", "d>=1234"]` from
`parse_f0` under `parse_env0`. -/
def parse_f1 : SubFilter :=
  { team := false, rated := true, dlo := 4, dhi := 8, rlo := 500, rhi := 3800,
    types := ["CONTESTANT", "OUT_OF_COMPETITION", "VIRTUAL", "PRACTICE"],
    tags := [], notags := [], contests := [], indices := [] }

/-- Sample contest with id 1, start time 1000. -/
def contest1 : Contest :=
  { id := 1, name := "Codeforces Round 700", startTimeSeconds := 1000,
    matchesF := fun _ => false }

/-- Sample cache knowing only `contest1`. -/
def cacheEnv5 : CacheEnv :=
  { contestById := fun i => if i = 1 then some contest1 else none,
    GYM_ID_THRESHOLD := 100000 }

/-- Sample problem in `contest1`, rated 800. -/
def prob1 : Problem :=
  { name := "A. Alpha", contestId := 1, index := "A", rating := some 800,
    tag_matches := fun _ => false, tag_matches_or_none := fun _ => true }

/-- Sample problem in an unknown contest, unrated. -/
def prob2 : Problem :=
  { name := "B. Beta", contestId := 2, index := "B", rating := none,
    tag_matches := fun _ => false, tag_matches_or_none := fun _ => true }

/-- Sample single-member author. -/
def author1 : Author := { participantType := "CONTESTANT", members := ["alice"] }

/-- Accepted submission to `prob1` at t = 10. -/
def sub10 : Submission :=
  { problem := prob1, verdict := "OK", creationTimeSeconds := 10, author := author1 }

/-- Accepted submission to `prob2` at t = 15. -/
def sub15 : Submission :=
  { problem := prob2, verdict := "OK", creationTimeSeconds := 15, author := author1 }

/-- Second accepted submission to `prob1`, at t = 20. -/
def sub20 : Submission :=
  { problem := prob1, verdict := "OK", creationTimeSeconds := 20, author := author1 }

end codeforces_common

/-!
## Theorems

Helper lemmas first, then one theorem per specification claim (with a
witness instantiation whenever the claim's theorem has hypotheses).
-/

theorem mem_pyDedupAux {α : Type} [DecidableEq α] :
    ∀ (l seen : List α) (x : α), x ∈ pyDedupAux l seen ↔ x ∈ l ∧ x ∉ seen := by
  intro l
  induction l with
  | nil => intro seen x; simp [pyDedupAux]
  | cons a as ih =>
    intro seen x
    by_cases ha : a ∈ seen
    · rw [pyDedupAux, if_pos ha, ih]
      constructor
      · rintro ⟨h1, h2⟩
        exact ⟨List.mem_cons_of_mem a h1, h2⟩
      · rintro ⟨h1, h2⟩
        rcases List.mem_cons.1 h1 with rfl | h1
        · exact absurd ha h2
        · exact ⟨h1, h2⟩
    · rw [pyDedupAux, if_neg ha]
      constructor
      · intro h
        rcases List.mem_cons.1 h with rfl | h
        · exact ⟨List.mem_cons_self x as, ha⟩
        · obtain ⟨h1, h2⟩ := (ih _ x).1 h
          refine ⟨List.mem_cons_of_mem a h1, fun hx => h2 (List.mem_cons_of_mem a hx)⟩
      · rintro ⟨h1, h2⟩
        rcases List.mem_cons.1 h1 with rfl | h1
        · exact List.mem_cons_self x _
        · by_cases hxa : x = a
          · subst hxa; exact List.mem_cons_self x _
          · refine List.mem_cons_of_mem a ((ih _ x).2 ⟨h1, fun hx => ?_⟩)
            rcases List.mem_cons.1 hx with h | h
            · exact hxa h
            · exact h2 h

theorem mem_pyDedup {α : Type} [DecidableEq α] {l : List α} {x : α} :
    x ∈ pyDedup l ↔ x ∈ l := by
  rw [pyDedup, mem_pyDedupAux]
  simp

theorem mem_listInsert_of_mem {α : Type} [DecidableEq α] {l : List α} {x : α}
    (y : α) (h : x ∈ l) : x ∈ listInsert y l := by
  rw [listInsert]
  split
  · exact h
  · exact List.mem_append_left _ h

theorem mem_listUnion_left {α : Type} [DecidableEq α] :
    ∀ (more l : List α) (x : α), x ∈ l → x ∈ listUnion l more := by
  intro more
  induction more with
  | nil => intro l x h; exact h
  | cons m ms ih =>
    intro l x h
    rw [listUnion, List.foldl_cons]
    exact ih _ x (mem_listInsert_of_mem m h)

namespace codeforces_common

/-- C2: evaluating `reformat_country_name` at the two inputs of the claim.
The first equality exhibits the divergence from the claimed behaviour: the
source's `ARTICLES` list is `["and", "or", "the"]` — it contains `"or"` but
not `"of"` — so the word `of` is capitalized and the function returns
`"United States Of America"`, not the claimed `"United States of America"`
(the `"u.s."` special case behaves as claimed). -/
theorem reformat_country_name_article_slip :
    reformat_country_name "  united STATES of america " = "United States Of America" ∧
    reformat_country_name "u.s." = "U.S." := by
  constructor <;> decide

/-- C8: `time_format 90061 = (1, 1, 1, 1)` and the four example renderings
of `pretty_time_format`, including the nonempty `"0 seconds"` fallback. -/
theorem time_format_examples :
    time_format 90061 = (1, 1, 1, 1) ∧
    pretty_time_format 90061 false false false = "1 day 1 hour 1 minute" ∧
    pretty_time_format 90061 false false true = "1 day 1 hour 1 minute 1 second" ∧
    pretty_time_format 90061 true false false = "1d 1h 1m" ∧
    pretty_time_format 0 false false false = "0 seconds" := by
  refine ⟨by decide, by decide, by decide, by decide, by decide⟩

end codeforces_common

/-- C9: the two duplicated time-formatting implementations compute identical
functions — for every integer second count and option combination,
`codeforces_common.time_format` / `codeforces_common.pretty_time_format`
agree with `discord_common.time_format` / `discord_common.pretty_time_format`. -/
theorem time_format_duplication_agrees :
    ∀ (s : Int) (shorten only_most_significant always_seconds : Bool),
      codeforces_common.time_format s = discord_common.time_format s ∧
      codeforces_common.pretty_time_format s shorten only_most_significant always_seconds =
        discord_common.pretty_time_format s shorten only_most_significant always_seconds :=
  fun _ _ _ _ => ⟨rfl, rfl⟩

namespace codeforces_common

/-- C10: `only_most_significant` takes precedence over `always_seconds`:
whenever one of days/hours/minutes is nonzero, `pretty_time_format` with
both options set renders exactly the most significant nonzero unit (the head
of `nonzero_units`), and equals the rendering with `always_seconds` off —
the seconds component is omitted. -/
theorem pretty_time_only_most_significant_precedence :
    ∀ (s : Int) (shorten : Bool),
      ((time_format s).1 ≠ 0 ∨ (time_format s).2.1 ≠ 0 ∨ (time_format s).2.2.1 ≠ 0) →
      ∃ u, (nonzero_units s).head? = some u ∧
        pretty_time_format s shorten true true = format_unit shorten u ∧
        pretty_time_format s shorten true true = pretty_time_format s shorten true false := by
  intro s shorten h
  have hne : nonzero_units s ≠ [] := by
    unfold nonzero_units
    rcases htf : time_format s with ⟨d, hh, m, ss⟩
    rw [htf] at h
    simp only [] at h
    simp only [List.filter]
    rcases h with h | h | h
    · have hb : (d != 0) = true := by simpa using h
      simp [hb]
    · have hb : (hh != 0) = true := by simpa using h
      cases hd : (d != 0) <;> simp [hb]
    · have hb : (m != 0) = true := by simpa using h
      cases hd : (d != 0) <;> cases hh2 : (hh != 0) <;> simp [hb]
  obtain ⟨u, rest, hu⟩ := List.exists_cons_of_ne_nil hne
  refine ⟨u, ?_, ?_, ?_⟩
  · rw [hu]; rfl
  · simp [pretty_time_format, hu, join_with_space]
  · simp [pretty_time_format, hu, join_with_space]

/-- Witness for C10 at the concrete input 90061 (whose days component is 1). -/
theorem pretty_time_only_most_significant_precedence_witness :
    ∃ u, (nonzero_units 90061).head? = some u ∧
      pretty_time_format 90061 false true true = format_unit false u ∧
      pretty_time_format 90061 false true true = pretty_time_format 90061 false true false :=
  pretty_time_only_most_significant_precedence 90061 false (by decide)

end codeforces_common

/-- C7: the `user_guard` wrapper never runs the handler for a user already in
the group's active set — such a call leaves the whole state unchanged and
raises exactly the configured factory error (silently returning when none is
configured) — and a call that does run leaves the active set as it was (in
particular the user id is not in it afterwards), whether the handler
returned or raised. -/
theorem user_guard_spec :
    ∀ {σ E : Type} (ge : Option E) (handler : σ → Except E σ) (user : Nat)
      (g : GuardState σ),
      (user ∈ g.active →
        (user_guard_call ge handler user g).2 = g ∧
        (user_guard_call ge handler user g).1 = ge) ∧
      (user ∉ g.active →
        user ∉ (user_guard_call ge handler user g).2.active ∧
        (user_guard_call ge handler user g).2.active = g.active ∧
        (user_guard_call ge handler user g).2.inner =
          (match handler g.inner with | .ok s1 => s1 | .error _ => g.inner) ∧
        (user_guard_call ge handler user g).1 =
          (match handler g.inner with | .ok _ => none | .error e => some e)) := by
  intro σ E ge handler user g
  constructor
  · intro hmem
    unfold user_guard_call
    rw [if_pos hmem]
    cases ge <;> simp
  · intro hmem
    unfold user_guard_call
    rw [if_neg hmem]
    cases hh : handler g.inner <;> simp [List.erase_cons_head, hmem]

/-- Witness for C7: a suppressed repeated call — user 7 is already active in
the concrete state `⟨[7], 0⟩`, and the call leaves the state unchanged and
raises nothing. -/
theorem user_guard_spec_witness :
    (user_guard_call (none : Option String)
        (fun n : Nat => (Except.ok (n + 1) : Except String Nat)) 7
        ⟨[7], 0⟩).2 = ⟨[7], 0⟩ ∧
    (user_guard_call (none : Option String)
        (fun n : Nat => (Except.ok (n + 1) : Except String Nat)) 7
        ⟨[7], 0⟩).1 = none :=
  (user_guard_spec (none : Option String)
    (fun n : Nat => (Except.ok (n + 1) : Except String Nat)) 7 ⟨[7], 0⟩).1
    (by decide)

namespace codeforces_common

theorem parseStep_bounds (env : ParseEnv) (st : SubFilter × List String) (arg : String)
    (st1 : SubFilter × List String) (h : parseStep env st arg = .ok st1) :
    st1.1.dhi = dhiStep env st.1.dhi arg ∧ st1.1.dlo = dloStep env st.1.dlo arg := by
  unfold parseStep at h
  split at h
  case h_1 => simp at h
  case h_2 tail heq =>
    rw [Except.ok.injEq] at h; subst h; simp [dhiStep, dloStep, heq]
  case h_3 tail heq =>
    rw [Except.ok.injEq] at h; subst h; simp [dhiStep, dloStep, heq]
  case h_4 tail heq =>
    split at h
    · rename_i t hpd
      rw [Except.ok.injEq] at h; subst h
      simp [dhiStep, dloStep, heq, hpd]
    · simp at h
  case h_5 tail heq =>
    split at h
    · rename_i t hpd
      rw [Except.ok.injEq] at h; subst h
      simp [dhiStep, dloStep, heq, hpd]
    · simp at h
  case h_6 tail heq =>
    split_ifs at h
    cases hpi : env.pyInt (arg.drop 3) with
    | none => rw [hpi] at h; simp at h
    | some v =>
      rw [hpi] at h
      rw [Except.ok.injEq] at h; subst h
      simp [dhiStep, dloStep, heq]
  case h_7 tail heq =>
    split_ifs at h
    cases hpi : env.pyInt (arg.drop 3) with
    | none => rw [hpi] at h; simp at h
    | some v =>
      rw [hpi] at h
      rw [Except.ok.injEq] at h; subst h
      simp [dhiStep, dloStep, heq]
  case h_8 cs heq =>
    split_ifs at h
    simp only [Except.ok.injEq] at h
    subst h; simp [dhiStep, dloStep, heq]
  case h_9 cs heq =>
    split_ifs at h <;> (simp only [Except.ok.injEq] at h; subst h; simp [dhiStep, dloStep, heq])
  case h_10 x hnil hc hi hdlt hdge hrle hrge htil hplus =>
    rw [Except.ok.injEq] at h; subst h
    refine ⟨?_, ?_⟩ <;> simp only [dhiStep, dloStep]

theorem parseLoop_bounds (env : ParseEnv) :
    ∀ (l : List String) (st st1 : SubFilter × List String),
      parseLoop env st l = .ok st1 →
      st1.1.dhi = l.foldl (dhiStep env) st.1.dhi ∧
      st1.1.dlo = l.foldl (dloStep env) st.1.dlo := by
  intro l
  induction l with
  | nil =>
    intro st st1 h
    simp only [parseLoop, Except.ok.injEq] at h
    subst h
    simp
  | cons a as ih =>
    intro st st1 h
    simp only [parseLoop] at h
    cases hs : parseStep env st a with
    | error e => rw [hs] at h; simp at h
    | ok st2 =>
      rw [hs] at h
      obtain ⟨h1, h2⟩ := parseStep_bounds env st a st2 hs
      obtain ⟨g1, g2⟩ := ih st2 st1 h
      constructor
      · rw [g1, List.foldl_cons, h1]
      · rw [g2, List.foldl_cons, h2]

theorem dhiStep_right_comm (env : ParseEnv) (acc : Int) (a b : String) :
    dhiStep env (dhiStep env acc a) b = dhiStep env (dhiStep env acc b) a := by
  unfold dhiStep
  repeat' split
  all_goals first | rfl | apply inf_right_comm

theorem dloStep_right_comm (env : ParseEnv) (acc : Int) (a b : String) :
    dloStep env (dloStep env acc a) b = dloStep env (dloStep env acc b) a := by
  unfold dloStep
  repeat' split
  all_goals first | rfl | apply sup_right_comm

theorem foldl_right_comm_perm (g : Int → String → Int)
    (hg : ∀ acc a b, g (g acc a) b = g (g acc b) a) :
    ∀ {l1 l2 : List String}, l1.Perm l2 → ∀ acc, l1.foldl g acc = l2.foldl g acc := by
  intro l1 l2 p
  induction p with
  | nil => intro acc; rfl
  | cons x p ih => intro acc; simp only [List.foldl_cons]; exact ih _
  | swap x y l => intro acc; simp only [List.foldl_cons]; rw [hg]
  | trans p q ih1 ih2 => intro acc; rw [ih1, ih2]

/-- C6: for every successfully parsed token list, the date bounds only
narrow — the final `dhi` is the fold of `min` over the parsed dates of the
deduplicated `d<` tokens starting from the initial upper bound, the final
`dlo` is the fold of `max` over the `d>=` dates from the initial lower
bound, and any reordering of the (deduplicated) tokens that also parses
yields the same two bounds. -/
theorem subfilter_parse_date_bounds (env : ParseEnv) (f : SubFilter) (args : List String)
    (f1 : SubFilter) (rest : List String)
    (h : SubFilter.parse env f args = .ok (f1, rest)) :
    f1.dhi = (pyDedup args).foldl (dhiStep env) f.dhi ∧
    f1.dlo = (pyDedup args).foldl (dloStep env) f.dlo ∧
    ∀ (args2 : List String) (f2 : SubFilter) (rest2 : List String),
      SubFilter.parse env f args2 = .ok (f2, rest2) →
      (pyDedup args).Perm (pyDedup args2) →
      f2.dhi = f1.dhi ∧ f2.dlo = f1.dlo := by
  have key : ∀ (as : List String) (g1 : SubFilter) (r1 : List String),
      SubFilter.parse env f as = .ok (g1, r1) →
      g1.dhi = (pyDedup as).foldl (dhiStep env) f.dhi ∧
      g1.dlo = (pyDedup as).foldl (dloStep env) f.dlo := by
    intro as g1 r1 hp
    unfold SubFilter.parse at hp
    cases hl : parseLoop env (f, []) (pyDedup as) with
    | error e => rw [hl] at hp; simp at hp
    | ok p =>
      rw [hl] at hp
      obtain ⟨hb1, hb2⟩ := parseLoop_bounds env (pyDedup as) (f, []) p hl
      simp only [Except.ok.injEq, Prod.mk.injEq] at hp
      obtain ⟨hp1, hp2⟩ := hp
      subst hp1
      simp [hb1, hb2]
  obtain ⟨h1, h2⟩ := key args f1 rest h
  refine ⟨h1, h2, ?_⟩
  intro args2 f2 rest2 h2ok hperm
  obtain ⟨g1, g2⟩ := key args2 f2 rest2 h2ok
  constructor
  · rw [g1, h1, foldl_right_comm_perm (dhiStep env) (dhiStep_right_comm env) hperm]
  · rw [g2, h2, foldl_right_comm_perm (dloStep env) (dloStep_right_comm env) hperm]

/-- Witness for C6: parsing `["d<12345678", "d>=1234"]` (dates evaluating to
8 and 4 under `parse_env0`) narrows the bounds of `parse_f0` to those folds. -/
theorem subfilter_parse_date_bounds_witness :
    parse_f1.dhi =
      (pyDedup ["d<12345678", "d>=1234"]).foldl (dhiStep parse_env0) parse_f0.dhi ∧
    parse_f1.dlo =
      (pyDedup ["d<12345678", "d>=1234"]).foldl (dloStep parse_env0) parse_f0.dlo :=
  ⟨(subfilter_parse_date_bounds parse_env0 parse_f0 ["d<12345678", "d>=1234"]
      parse_f1 [] rfl).1,
   (subfilter_parse_date_bounds parse_env0 parse_f0 ["d<12345678", "d>=1234"]
      parse_f1 [] rfl).2.1⟩

end codeforces_common

namespace codeforces_common

set_option maxHeartbeats 1000000 in
theorem filter_pred_iff (env : CacheEnv) (f : SubFilter) (s : Submission) :
    filter_pred env f s = true ↔
      (s.author.participantType ∈ f.types ∧
       (f.dlo ≤ s.creationTimeSeconds ∧ s.creationTimeSeconds < f.dhi) ∧
       (if f.rated = true then
          ∃ r, s.problem.rating = some r ∧ r ≠ 0 ∧ f.rlo ≤ r ∧ r ≤ f.rhi
        else True) ∧
       (f.tags = [] ∨ s.problem.tag_matches f.tags = true) ∧
       (f.notags = [] ∨ s.problem.tag_matches_or_none f.notags = true) ∧
       (f.team = true ∨ s.author.members.length = 1) ∧
       (if f.rated = true then
          ∃ c, env.contestById s.problem.contestId = some c ∧
            c.id < env.GYM_ID_THRESHOLD ∧ is_nonstandard_problem_with c s.problem = false
        else
          env.contestById s.problem.contestId = none ∨
          ∃ c, env.contestById s.problem.contestId = some c ∧
            (env.GYM_ID_THRESHOLD ≤ c.id ∨ is_nonstandard_problem_with c s.problem = false)) ∧
       (f.contests = [] ∨ ∃ c, env.contestById s.problem.contestId = some c ∧
          c.matchesF f.contests = true) ∧
       (f.indices = [] ∨ ∃ i ∈ f.indices, py_lower i = py_lower s.problem.index)) := by
  unfold filter_pred
  dsimp only
  cases hrated : f.rated <;> cases hco : env.contestById s.problem.contestId <;>
    cases hr : s.problem.rating <;>
      simp [List.isEmpty_iff, and_assoc]

/-- C4: a submission is admitted by `filter_subs` exactly when it survives
the solved-reduction and every predicate holds; when `rated` is true this
requires a known contest with id below the gym threshold, a problem not
classified nonstandard, and a (truthy) rating inside `[rlo, rhi]`; when
`rated` is false the contest may be unknown, at or above the gym threshold,
or the problem merely not nonstandard, and no rating condition appears. -/
theorem filter_subs_mem_iff (env : CacheEnv) (f : SubFilter) (subs : List Submission)
    (s : Submission) :
    s ∈ filter_subs env f subs ↔
      (s ∈ filter_solved env subs ∧
       s.author.participantType ∈ f.types ∧
       (f.dlo ≤ s.creationTimeSeconds ∧ s.creationTimeSeconds < f.dhi) ∧
       (if f.rated = true then
          ∃ r, s.problem.rating = some r ∧ r ≠ 0 ∧ f.rlo ≤ r ∧ r ≤ f.rhi
        else True) ∧
       (f.tags = [] ∨ s.problem.tag_matches f.tags = true) ∧
       (f.notags = [] ∨ s.problem.tag_matches_or_none f.notags = true) ∧
       (f.team = true ∨ s.author.members.length = 1) ∧
       (if f.rated = true then
          ∃ c, env.contestById s.problem.contestId = some c ∧
            c.id < env.GYM_ID_THRESHOLD ∧ is_nonstandard_problem_with c s.problem = false
        else
          env.contestById s.problem.contestId = none ∨
          ∃ c, env.contestById s.problem.contestId = some c ∧
            (env.GYM_ID_THRESHOLD ≤ c.id ∨ is_nonstandard_problem_with c s.problem = false)) ∧
       (f.contests = [] ∨ ∃ c, env.contestById s.problem.contestId = some c ∧
          c.matchesF f.contests = true) ∧
       (f.indices = [] ∨ ∃ i ∈ f.indices, py_lower i = py_lower s.problem.index)) := by
  rw [filter_subs, List.mem_filter, filter_pred_iff]

end codeforces_common

namespace codeforces_common

theorem filterSolvedAux_mem (env : CacheEnv) :
    ∀ (l : List Submission) (seen : List (String × Nat)) (s : Submission),
      s ∈ filterSolvedAux env l seen →
      s ∈ l ∧ s.verdict = "OK" ∧ problemKey env s ∉ seen := by
  intro l
  induction l with
  | nil => intro seen s h; simp [filterSolvedAux] at h
  | cons a as ih =>
    intro seen s h
    rw [filterSolvedAux] at h
    split_ifs at h with hok hseen
    · obtain ⟨h1, h2, h3⟩ := ih _ s h
      exact ⟨List.mem_cons_of_mem a h1, h2, h3⟩
    · rcases List.mem_cons.1 h with rfl | h
      · exact ⟨List.mem_cons_self s as, hok, hseen⟩
      · obtain ⟨h1, h2, h3⟩ := ih _ s h
        refine ⟨List.mem_cons_of_mem a h1, h2, fun hx => h3 (List.mem_cons_of_mem _ hx)⟩
    · obtain ⟨h1, h2, h3⟩ := ih _ s h
      exact ⟨List.mem_cons_of_mem a h1, h2, h3⟩

theorem filterSolvedAux_pairwise (env : CacheEnv) :
    ∀ (l : List Submission) (seen : List (String × Nat)),
      (filterSolvedAux env l seen).Pairwise
        (fun a b => problemKey env a ≠ problemKey env b) := by
  intro l
  induction l with
  | nil => intro seen; simp [filterSolvedAux]
  | cons a as ih =>
    intro seen
    rw [filterSolvedAux]
    split_ifs with hok hseen
    · exact ih _
    · refine List.Pairwise.cons ?_ (ih _)
      intro b hb
      have := (filterSolvedAux_mem env as _ b hb).2.2
      intro hcontra
      exact this (hcontra ▸ List.mem_cons_self _ _)
    · exact ih _

theorem filterSolvedAux_complete (env : CacheEnv) :
    ∀ (l : List Submission) (seen : List (String × Nat)) (t : Submission),
      t ∈ l → t.verdict = "OK" → problemKey env t ∉ seen →
      ∃ s ∈ filterSolvedAux env l seen, problemKey env s = problemKey env t := by
  intro l
  induction l with
  | nil => intro seen t ht; simp at ht
  | cons a as ih =>
    intro seen t ht hok hseen
    rw [filterSolvedAux]
    rcases List.mem_cons.1 ht with rfl | ht
    · rw [if_pos hok, if_neg hseen]
      exact ⟨t, List.mem_cons_self _ _, rfl⟩
    · split_ifs with haok haseen
      · exact ih _ t ht hok hseen
      · by_cases hkey : problemKey env t = problemKey env a
        · exact ⟨a, List.mem_cons_self _ _, hkey.symm⟩
        · obtain ⟨s, hs1, hs2⟩ := ih (problemKey env a :: seen) t ht hok (by
            intro hx
            rcases List.mem_cons.1 hx with h | h
            · exact hkey h
            · exact hseen h)
          exact ⟨s, List.mem_cons_of_mem _ hs1, hs2⟩
      · exact ih _ t ht hok hseen

theorem filterSolvedAux_min (env : CacheEnv) :
    ∀ (l : List Submission) (seen : List (String × Nat)),
      l.Pairwise subTimeLE →
      ∀ s ∈ filterSolvedAux env l seen, ∀ t ∈ l, t.verdict = "OK" →
        problemKey env t = problemKey env s →
        s.creationTimeSeconds ≤ t.creationTimeSeconds := by
  intro l
  induction l with
  | nil => intro seen _ s hs; simp [filterSolvedAux] at hs
  | cons a as ih =>
    intro seen hsorted s hs t ht htok hkey
    obtain ⟨hhead, htail⟩ := List.pairwise_cons.1 hsorted
    rw [filterSolvedAux] at hs
    split_ifs at hs with haok haseen
    · rcases List.mem_cons.1 ht with rfl | ht
      · have := (filterSolvedAux_mem env as seen s hs).2.2
        exact absurd (hkey ▸ haseen) this
      · exact ih _ htail s hs t ht htok hkey
    · rcases List.mem_cons.1 hs with rfl | hs
      · rcases List.mem_cons.1 ht with rfl | ht
        · exact le_refl _
        · exact hhead t ht
      · rcases List.mem_cons.1 ht with rfl | ht
        · have := (filterSolvedAux_mem env as _ s hs).2.2
          exact absurd (hkey ▸ List.mem_cons_self _ _) this
        · exact ih _ htail s hs t ht htok hkey
    · rcases List.mem_cons.1 ht with rfl | ht
      · exact absurd htok haok
      · exact ih _ htail s hs t ht htok hkey

/-- C5: `filter_solved` keeps only accepted submissions from the input, with
pairwise-distinct problem keys (problem name, contest start time or 0),
covering the key of every accepted input submission, each kept submission
being earliest by creation time among accepted submissions with its key; on
the concrete example — one problem solved at t = 10 and t = 20, another at
t = 15 — exactly the t = 10 and t = 15 submissions are returned. -/
theorem filter_solved_spec :
    (∀ (env : CacheEnv) (subs : List Submission),
      (∀ s ∈ filter_solved env subs, s ∈ subs ∧ s.verdict = "OK") ∧
      (filter_solved env subs).Pairwise
        (fun a b => problemKey env a ≠ problemKey env b) ∧
      (∀ t ∈ subs, t.verdict = "OK" →
        ∃ s ∈ filter_solved env subs, problemKey env s = problemKey env t) ∧
      (∀ s ∈ filter_solved env subs, ∀ t ∈ subs, t.verdict = "OK" →
        problemKey env t = problemKey env s →
        s.creationTimeSeconds ≤ t.creationTimeSeconds)) ∧
    filter_solved cacheEnv5 [sub20, sub15, sub10] = [sub10, sub15] := by
  constructor
  · intro env subs
    refine ⟨?_, ?_, ?_, ?_⟩
    · intro s hs
      obtain ⟨h1, h2, _⟩ := filterSolvedAux_mem env _ _ s hs
      rw [List.mem_insertionSort] at h1
      exact ⟨h1, h2⟩
    · exact filterSolvedAux_pairwise env _ _
    · intro t ht htok
      refine filterSolvedAux_complete env (subs.insertionSort subTimeLE) [] t ?_ htok ?_
      · rw [List.mem_insertionSort]; exact ht
      · simp
    · intro s hs t ht htok hkey
      refine filterSolvedAux_min env _ [] (List.sorted_insertionSort subTimeLE subs)
        s hs t ?_ htok hkey
      rw [List.mem_insertionSort]; exact ht
  · rfl

/-- Witness for C5: in the concrete example the kept t = 10 submission is no
later than the discarded t = 20 submission for the same problem. -/
theorem filter_solved_spec_witness :
    sub10.creationTimeSeconds ≤ sub20.creationTimeSeconds :=
  (filter_solved_spec.1 cacheEnv5 [sub20, sub15, sub10]).2.2.2 sub10
    (List.mem_cons_self sub10 [sub15]) sub20 (List.mem_cons_self sub20 [sub15, sub10])
    rfl rfl

end codeforces_common

namespace codeforces_common

theorem resolveStep_not_count (env : ResolveEnv) (resource t : String)
    (resolved : List String) (ais : List Nat) (mn : Nat) (mx : Option Nat) :
    resolveStep env resource t resolved ais ≠
      .error (.handleCountOutOfBounds mn mx) := by
  intro h
  unfold resolveStep at h
  repeat' split at h
  all_goals simp_all

theorem resolveLoop_not_count (env : ResolveEnv) (resource : String) :
    ∀ (hs resolved : List String) (ais : List Nat) (mn : Nat) (mx : Option Nat),
      resolveLoop env resource hs resolved ais ≠
        .error (.handleCountOutOfBounds mn mx) := by
  intro hs
  induction hs with
  | nil => intro resolved ais mn mx h; simp [resolveLoop] at h
  | cons t ts ih =>
    intro resolved ais mn mx h
    rw [resolveLoop] at h
    cases hstep : resolveStep env resource t resolved ais with
    | error e =>
      rw [hstep] at h
      dsimp only at h
      rw [Except.error.injEq] at h
      subst h
      exact resolveStep_not_count env resource t resolved ais mn mx hstep
    | ok trip =>
      rw [hstep] at h
      dsimp only at h
      obtain ⟨res1, ais1, hvar⟩ := trip
      cases hvar with
      | none => exact ih res1 ais1 mn mx h
      | some hd =>
        dsimp only at h
        split_ifs at h with hmem
        · simp at h
        · exact ih res1 ais1 mn mx h

/-- C1 (amended): `resolve_handles` raises the handle-count error exactly
when, after deduplication and `+server` expansion (but before `+list` and
`+!role` expansion, whose tokens each count as one handle), the account-id
set is empty and the handle count violates `mincnt ≤ count` or — when a
truthy maximum is given — `count ≤ maxcnt`. -/
theorem resolve_handles_count_check_iff (env : ResolveEnv) (tokens : List String)
    (mincnt : Nat) (maxcnt : Option Nat) (dflt : Bool) (resource : String) :
    resolve_handles env tokens mincnt maxcnt dflt resource =
        .error (.handleCountOutOfBounds mincnt maxcnt) ↔
      ((expandServer env tokens dflt resource).2.length = 0 ∧
       ((expandServer env tokens dflt resource).1.length < mincnt ∨
        maxcntExceeded maxcnt (expandServer env tokens dflt resource).1.length = true)) := by
  unfold resolve_handles
  dsimp only
  split
  · rename_i hcond
    exact iff_of_true rfl hcond
  · rename_i hcond
    refine iff_of_false ?_ hcond
    cases hl : resolveLoop env resource (expandServer env tokens dflt resource).1 []
        (expandServer env tokens dflt resource).2 with
    | error e =>
      dsimp only
      intro h
      rw [Except.error.injEq] at h
      subst h
      exact resolveLoop_not_count env resource _ _ _ mincnt maxcnt hl
    | ok pair =>
      obtain ⟨resolved, ais⟩ := pair
      dsimp only
      split_ifs <;> simp

/-- Counterexample for C1: with six registered guild handles, the single
token `+server` (default resource, default bounds 1 and 5) raises the
handle-count error — the `+server` branch is not exempt from the bounds
check, since its expansion happens before the check. -/
theorem resolve_handles_server_not_exempt :
    resolve_handles resolveEnvBigGuild ["+server"] 1 (some 5) false "codeforces.com" =
      .error (.handleCountOutOfBounds 1 (some 5)) := rfl

end codeforces_common

namespace codeforces_common

theorem resolveStep_literal_hvar (env : ResolveEnv) (resource t : String)
    (resolved : List String) (ais : List Nat) (res1 : List String) (ais1 : List Nat)
    (hvar : Option String)
    (hplus : t.data.head? ≠ some '+') (hbang : t.data.head? ≠ some '!')
    (h : resolveStep env resource t resolved ais = .ok (res1, ais1, hvar)) :
    hvar = some t := by
  unfold resolveStep at h
  split at h
  case h_1 tail heq => exact absurd (by rw [heq]; rfl) hplus
  case h_2 tail heq => exact absurd (by rw [heq]; rfl) hplus
  case h_3 tail heq => exact absurd (by rw [heq]; rfl) hbang
  case h_4 x h1 h2 h3 =>
    by_cases hres : resource = "codeforces.com"
    · rw [if_pos hres] at h
      simp only [Except.ok.injEq, Prod.mk.injEq] at h
      exact h.2.2.symm
    · rw [if_neg hres] at h
      cases hafm : env.getAccountIdFromHandle t <;> rw [hafm] at h <;>
        (simp only [Except.ok.injEq, Prod.mk.injEq] at h; exact h.2.2.symm)

theorem resolveLoop_ok_literal (env : ResolveEnv) (resource : String) :
    ∀ (hs resolved : List String) (ais : List Nat) (out : List String × List Nat),
      resolveLoop env resource hs resolved ais = .ok out →
      ∀ t ∈ hs, t.data.head? ≠ some '+' → t.data.head? ≠ some '!' →
      t ∉ HandleIsVjudgeError.HANDLES := by
  intro hs
  induction hs with
  | nil => intro _ _ _ _ t ht; simp at ht
  | cons u us ih =>
    intro resolved ais out h t ht hplus hbang
    rw [resolveLoop] at h
    cases hstep : resolveStep env resource u resolved ais with
    | error e =>
      rw [hstep] at h
      simp at h
    | ok trip =>
      rw [hstep] at h
      dsimp only at h
      obtain ⟨res1, ais1, hvar⟩ := trip
      rcases List.mem_cons.1 ht with rfl | ht
      · have hv : hvar = some t :=
          resolveStep_literal_hvar env resource t resolved ais res1 ais1 hvar hplus hbang hstep
        subst hv
        dsimp only at h
        by_cases hmem : t ∈ HandleIsVjudgeError.HANDLES
        · rw [if_pos hmem] at h; simp at h
        · exact hmem
      · cases hvar with
        | none => exact ih res1 ais1 out h t ht hplus hbang
        | some hd =>
          dsimp only at h
          split_ifs at h with hmem
          exact ih res1 ais1 out h t ht hplus hbang

theorem mem_expandServer (env : ResolveEnv) (tokens : List String) (dflt : Bool)
    (resource : String) (t : String) (htok : t ∈ tokens)
    (hplus : t.data.head? ≠ some '+') :
    t ∈ (expandServer env tokens dflt resource).1 := by
  unfold expandServer
  dsimp only
  have ht1 : t ∈ pyDedup tokens := mem_pyDedup.2 htok
  have hne : (pyDedup tokens).isEmpty = false := by
    cases hpd : pyDedup tokens with
    | nil => rw [hpd] at ht1; simp at ht1
    | cons a as => rfl
  rw [hne, Bool.and_false, if_neg Bool.false_ne_true]
  have htsrv : t ≠ "+server" := by
    intro hcontra
    rw [hcontra] at hplus
    exact hplus rfl
  by_cases hsrv : "+server" ∈ pyDedup tokens
  · rw [if_pos hsrv]
    have hfil : t ∈ (pyDedup tokens).filter (fun h => h ≠ "+server") :=
      List.mem_filter.2 ⟨ht1, by simp [htsrv]⟩
    by_cases hres : resource = "codeforces.com"
    · rw [if_pos hres]
      exact mem_listUnion_left env.guildHandles _ t hfil
    · rw [if_neg hres]
      exact hfil
  · rw [if_neg hsrv]
    exact ht1

/-- C3 (amended): a successful resolution never had a blocklisted literal
token — every token not starting with `+` or `!` is checked against the
mirror-bot blocklist, so if `resolve_handles` returns without raising, no
such token was blocklisted.  (Handles introduced by `+list` expansion are
merged into the resolved set without passing through the end-of-iteration
check and can be returned; see the counterexample.  Handles expanded from
`+server` join the token set before the loop, so each is checked as a loop
element of its own iteration.) -/
theorem resolve_handles_ok_literal_not_blocklisted (env : ResolveEnv)
    (tokens : List String) (mincnt : Nat) (maxcnt : Option Nat) (dflt : Bool)
    (resource : String) (out : List String ⊕ List Nat)
    (hok : resolve_handles env tokens mincnt maxcnt dflt resource = .ok out)
    (t : String) (htok : t ∈ tokens)
    (hplus : t.data.head? ≠ some '+') (hbang : t.data.head? ≠ some '!') :
    t ∉ HandleIsVjudgeError.HANDLES := by
  unfold resolve_handles at hok
  dsimp only at hok
  split at hok
  · simp at hok
  · rename_i hcond
    cases hl : resolveLoop env resource (expandServer env tokens dflt resource).1 []
        (expandServer env tokens dflt resource).2 with
    | error e =>
      rw [hl] at hok
      simp at hok
    | ok pair =>
      exact resolveLoop_ok_literal env resource _ _ _ pair hl t
        (mem_expandServer env tokens dflt resource t htok hplus) hplus hbang

/-- Counterexample for C3: resolving the single token `+judges`, where the
persisted list `judges` contains the blocklisted handle `vjudge1`, succeeds
and returns `vjudge1` — the blocklist does not guard handles introduced by
`+list` expansion, so a blocklisted handle can be returned as a target. -/
theorem resolve_handles_returns_blocklisted_from_list :
    resolve_handles resolveEnvVjudgeList ["+judges"] 1 (some 5) false "codeforces.com" =
      .ok (.inl ["vjudge1"]) ∧ "vjudge1" ∈ HandleIsVjudgeError.HANDLES :=
  ⟨rfl, by decide⟩

/-- Witness for C3 (amended): the literal token `alice` resolves successfully
in the empty environment, whence it is not blocklisted. -/
theorem resolve_handles_ok_literal_not_blocklisted_witness :
    "alice" ∉ HandleIsVjudgeError.HANDLES :=
  resolve_handles_ok_literal_not_blocklisted resolveEnvEmpty ["alice"] 1 (some 5) false
    "codeforces.com" (.inl ["alice"]) rfl "alice" (by decide) (by decide) (by decide)

end codeforces_common
